import Mathlib

/-!
Verification development for the Microsoft Graph subscription analyzer
(`subscription_analyzer.py`).

The script is embedded shallowly:

* HTTP traffic is modelled by a *script*: a list of events, one per request
  issued, each event being either a response (status, optional Retry-After
  header, parsed JSON body) or a transport-level error.  The embedded
  functions consume the script in order and return the unconsumed suffix,
  so sequential calls can be chained.
* `_make_graph_request_with_retry` becomes `fetch` / `fetchGo`, returning
  the outcome, the list of computed back-off waits (the model of the
  `time.sleep` calls, in seconds), the number of HTTP requests made and the
  remaining script.
* `get_all_subscriptions` becomes `getAllGo` / `getAllSubscriptions`
  (note: the source issues its page requests with a plain `requests.get`,
  not through the retry helper, and this embedding mirrors that).
* `get_application_details`, `filter_transcript_subscriptions` and
  `generate_report` are embedded over an `AnalyzerState` holding the
  `subscriptions` list and the `app_details` cache (an insertion-ordered
  association list, modelling the Python dict).
* Python's stable `list.sort(key=..., reverse=True)` is modelled by a
  stable descending insertion sort (`sortByCountDesc`), which computes the
  same output as any stable descending sort.
* Wall-clock concerns (the actual sleeping, the `generatedAt` timestamp)
  and JSON (de)serialisation are outside the embedding; response bodies are
  taken as already-parsed structures.
-/

/-! ### String helpers

Substring containment (Python's `in` on `str`), ASCII lower-casing
(Python's `str.lower`, restricted to the ASCII range used by the data in
question), and integer parsing per Python's `int(str)` (optional
surrounding whitespace, optional sign, then a non-empty digit run;
exotic forms such as underscore grouping or non-ASCII digits are not
modelled). -/

def startsWithL : List Char → List Char → Bool
  | [], _ => true
  | _ :: _, [] => false
  | a :: as, b :: bs => a == b && startsWithL as bs

def hasSubL (needle : List Char) : List Char → Bool
  | [] => needle.isEmpty
  | b :: bs => startsWithL needle (b :: bs) || hasSubL needle bs

def hasSubstr (needle hay : String) : Bool :=
  hasSubL needle.data hay.data

def lowerStr (s : String) : String :=
  String.mk (s.data.map Char.toLower)

def digitsToNat (ds : List Char) : Nat :=
  ds.foldl (fun a c => 10 * a + (c.toNat - 48)) 0

def trimWs (cs : List Char) : List Char :=
  ((cs.dropWhile Char.isWhitespace).reverse.dropWhile Char.isWhitespace).reverse

def digitsOk (ds : List Char) : Bool :=
  !ds.isEmpty && ds.all Char.isDigit

def pyIntOfStr (s : String) : Option Int :=
  match trimWs s.data with
  | '+' :: ds => if digitsOk ds then some (Int.ofNat (digitsToNat ds)) else none
  | '-' :: ds => if digitsOk ds then some (-(Int.ofNat (digitsToNat ds))) else none
  | ds => if digitsOk ds then some (Int.ofNat (digitsToNat ds)) else none

/-! ### The resilient fetcher (`_make_graph_request_with_retry`, lines 87-158) -/

/-- An HTTP response as the script sees it: status code, the optional
`Retry-After` header value, and the parsed JSON body. -/
structure Response (β : Type) where
  status : Nat
  retryAfter : Option String := none
  body : β
deriving Repr, DecidableEq

/-- One scripted network event: either a response to the request, or a
`requests.exceptions.RequestException` (transport failure) rendered as a
message string. -/
inductive NetEvent (β : Type) where
  | resp (r : Response β)
  | netErr (e : String)
deriving Repr, DecidableEq

/-- Outcome of one `_make_graph_request_with_retry` call: a returned
response (HTTP 200 or a non-retryable status, both returned as-is), the
raised `Exception` with its message, or the model artefact for a script
that is too short to finish the call. -/
inductive FetchOutcome (β : Type) where
  | ok (r : Response β)
  | exhausted (msg : String)
  | scriptDry
deriving Repr, DecidableEq

/-- Result of a fetch call: outcome, the back-off waits slept (seconds, in
order), the number of HTTP requests issued, and the unconsumed script. -/
structure FetchRun (β : Type) where
  outcome : FetchOutcome β
  waits : List Int
  requests : Nat
  remaining : List (NetEvent β)
deriving Repr, DecidableEq

/-- Message of line 120: max-retries exceeded on a 429/503 run. -/
def httpExhaustMsg (maxRetries : Nat) (url : String) : String :=
  "Max retries (" ++ toString maxRetries ++ ") exceeded for " ++ url

/-- Message of line 150: max-retries exceeded on transport errors. -/
def netExhaustMsg (maxRetries : Nat) (e : String) : String :=
  "Network error after " ++ toString maxRetries ++ " retries: " ++ e

/-- `base_delay * (2 ** (retry_count - 1))` with `base_delay = 1`
(lines 105, 131, 134, 152). -/
def expDelay (attempt : Nat) : Int :=
  (2 : Int) ^ (attempt - 1)

/-- The uncapped wait chosen for a 429/503 (lines 123-134): a present,
non-empty `Retry-After` that parses as an `int` is used verbatim;
otherwise exponential back-off. -/
def retryWaitRaw (attempt : Nat) : Option String → Int
  | some s =>
    if s = "" then expDelay attempt
    else
      match pyIntOfStr s with
      | some n => n
      | none => expDelay attempt
  | none => expDelay attempt

/-- The wait actually slept for a 429/503, after the 120-second cap of
line 137. -/
def retryWait (attempt : Nat) (ra : Option String) : Int :=
  min (retryWaitRaw attempt ra) 120

/-- The `while retry_count <= max_retries` loop of lines 107-156,
with `rc` the current `retry_count`.  Each step consumes one scripted
event (one `requests.get`). -/
def fetchGo {β : Type} (url : String) (maxRetries : Nat) :
    List (NetEvent β) → Nat → FetchRun β
  | [], _ => ⟨FetchOutcome.scriptDry, [], 0, []⟩
  | NetEvent.resp r :: rest, rc =>
    if r.status = 200 then ⟨FetchOutcome.ok r, [], 1, rest⟩
    else if r.status = 429 ∨ r.status = 503 then
      if maxRetries < rc + 1 then
        ⟨FetchOutcome.exhausted (httpExhaustMsg maxRetries url), [], 1, rest⟩
      else
        let fr := fetchGo url maxRetries rest (rc + 1)
        ⟨fr.outcome, retryWait (rc + 1) r.retryAfter :: fr.waits, fr.requests + 1, fr.remaining⟩
    else ⟨FetchOutcome.ok r, [], 1, rest⟩
  | NetEvent.netErr e :: rest, rc =>
    if maxRetries < rc + 1 then
      ⟨FetchOutcome.exhausted (netExhaustMsg maxRetries e), [], 1, rest⟩
    else
      let fr := fetchGo url maxRetries rest (rc + 1)
      ⟨fr.outcome, min (expDelay (rc + 1)) 120 :: fr.waits, fr.requests + 1, fr.remaining⟩

/-- `_make_graph_request_with_retry` with its initial `retry_count = 0`. -/
def fetch {β : Type} (url : String) (maxRetries : Nat) (script : List (NetEvent β)) : FetchRun β :=
  fetchGo url maxRetries script 0

/-! ### Data model -/

/-- A subscription record as returned by the listing endpoint.  Every field
is read in the source with `dict.get`, so each is optional here. -/
structure SubRec where
  id : Option String := none
  resource : Option String := none
  changeType : Option String := none
  expirationDateTime : Option String := none
  notificationUrl : Option String := none
  clientState : Option String := none
  applicationId : Option String := none
deriving Repr, DecidableEq

/-- One service-principal object of the lookup endpoint's `value` array
(only the fields the source reads). -/
structure SP where
  displayName : Option String := none
  id : Option String := none
deriving Repr, DecidableEq

/-- Parsed body of a `/servicePrincipals` lookup response; an absent or
null `value` is modelled by the empty list (both are falsy in the
source's `data.get('value') and len(data['value']) > 0` test). -/
structure LookupBody where
  value : List SP := []
deriving Repr, DecidableEq

/-- The application info dict built by `get_application_details`. -/
structure AppInfo where
  displayName : String
  appId : String
  servicePrincipalId : Option String
deriving Repr, DecidableEq

/-- The "Unknown (Not found in tenant)" placeholder (lines 231-235). -/
def notFoundInfo (appId : String) : AppInfo :=
  { displayName := "Unknown (Not found in tenant)", appId := appId, servicePrincipalId := none }

/-- The "Error fetching details" placeholder (lines 240-244). -/
def errorInfo (appId : String) : AppInfo :=
  { displayName := "Error fetching details", appId := appId, servicePrincipalId := none }

/-- The analyzer's mutable instance state: `self.subscriptions` and the
`self.app_details` cache.  The cache is an insertion-ordered association
list, modelling the Python dict keyed by applicationId. -/
structure AnalyzerState where
  subscriptions : List SubRec := []
  appDetails : List (String × AppInfo) := []
deriving Repr, DecidableEq

/-- `self.app_details[app_id] = info` for a key not yet present. -/
def cacheAdd (st : AnalyzerState) (appId : String) (info : AppInfo) : AnalyzerState :=
  { st with appDetails := st.appDetails ++ [(appId, info)] }

def graphEndpoint : String := "https://graph.microsoft.com/v1.0"

def unknownName : String := "Unknown"

def subsUrl : String := "https://graph.microsoft.com/v1.0/subscriptions"

def spUrl : String := "https://graph.microsoft.com/v1.0/servicePrincipals"

/-! ### The entity resolver (`get_application_details`, lines 198-244) -/

/-- Lines 218-236: what is built from a response the fetcher *returned*
(as opposed to raised on): HTTP 200 with a non-empty `value` yields the
resolved info from its first element; anything else falls through to the
"not found in tenant" placeholder. -/
def resolveOk (appId : String) (r : Response LookupBody) : AppInfo :=
  if r.status = 200 then
    match r.body.value with
    | sp :: _ => { displayName := sp.displayName.getD unknownName, appId := appId,
                   servicePrincipalId := sp.id }
    | [] => notFoundInfo appId
  else notFoundInfo appId

/-- The cache-miss path of `get_application_details`, split on the fetch
outcome: a returned response is resolved and cached; a raised exception
(retry budget exhausted) degrades to the error placeholder, which is
returned *without* being cached (lines 238-244).  `none` is the model
artefact for a script too short to finish the fetch.  The `Bool` records
whether a lookup call was made (always `true` here). -/
def applyFetch (appId : String) (st : AnalyzerState) (fr : FetchRun LookupBody) :
    Option (AppInfo × AnalyzerState × List (NetEvent LookupBody) × Bool) :=
  match fr.outcome with
  | FetchOutcome.ok r =>
    let info := resolveOk appId r
    some (info, cacheAdd st appId info, fr.remaining, true)
  | FetchOutcome.exhausted _ => some (errorInfo appId, st, fr.remaining, true)
  | FetchOutcome.scriptDry => none

/-- `get_application_details(app_id)`: on a cache hit the stored value is
returned with no network traffic; on a miss the retry-wrapped lookup is
made (default budget 8) and handled by `applyFetch`.  Returns the info,
the new state, the unconsumed script and whether a lookup call was made. -/
def getApplicationDetails (appId : String) (st : AnalyzerState)
    (script : List (NetEvent LookupBody)) :
    Option (AppInfo × AnalyzerState × List (NetEvent LookupBody) × Bool) :=
  match st.appDetails.lookup appId with
  | some info => some (info, st, script, false)
  | none => applyFetch appId st (fetch spUrl 8 script)

/-! ### The paginator (`get_all_subscriptions`, lines 160-196) -/

/-- Parsed body of one listing page: `data.get('value', [])` and
`data.get('@odata.nextLink')`. -/
structure PageBody where
  value : List SubRec := []
  nextLink : Option String := none
deriving Repr, DecidableEq

/-- One scripted event for a listing-page `requests.get` (line 180):
a response with status, body and (error-reporting) text, or a raised
transport exception. -/
inductive PageEvent where
  | resp (status : Nat) (body : PageBody) (text : String)
  | netErr (e : String)
deriving Repr, DecidableEq

/-- Outcome of the listing: the accumulated records, or the message of
the raised exception, or the model artefact for a script that ran dry. -/
inductive ListOutcome where
  | ok (subs : List SubRec)
  | fail (msg : String)
  | scriptDry
deriving Repr, DecidableEq

/-- Message of line 183. -/
def pageFailMsg (status : Nat) (text : String) : String :=
  "Failed to fetch subscriptions: " ++ toString status ++ " - " ++ text

/-- The `while url:` loop of lines 176-192.  The current `url` is falsy
(loop exits) when it is `None` or the empty string.  A page request is a
plain `requests.get`: any non-200 status raises immediately (line 182-183)
and a transport exception propagates; neither is retried here.
`pages` is the running `page_count`, incremented per request made. -/
def getAllGo : List PageEvent → Option String → List SubRec → Nat →
    ListOutcome × Nat × List PageEvent
  | script, none, acc, pages => (ListOutcome.ok acc, pages, script)
  | script, some u, acc, pages =>
    if u = "" then (ListOutcome.ok acc, pages, script)
    else
      match script with
      | [] => (ListOutcome.scriptDry, pages, [])
      | PageEvent.netErr e :: rest => (ListOutcome.fail e, pages + 1, rest)
      | PageEvent.resp status body text :: rest =>
        if status = 200 then
          getAllGo rest body.nextLink (acc ++ body.value) (pages + 1)
        else (ListOutcome.fail (pageFailMsg status text), pages + 1, rest)

/-- `get_all_subscriptions`: drives the page loop from the fixed listing
URL and, only on success, publishes the accumulated list to
`self.subscriptions` (line 195).  Returns the outcome, the new state, the
number of page requests made and the unconsumed script. -/
def getAllSubscriptions (st : AnalyzerState) (script : List PageEvent) :
    ListOutcome × AnalyzerState × Nat × List PageEvent :=
  match getAllGo script (some subsUrl) [] 0 with
  | (ListOutcome.ok subs, pages, rest) =>
    (ListOutcome.ok subs, { st with subscriptions := subs }, pages, rest)
  | (o, pages, rest) => (o, st, pages, rest)

/-! ### The transcript filter (`filter_transcript_subscriptions`, lines 246-258) -/

def transcriptTok : String := "transcript"

def onlineMeetingsTok : String := "communications/onlineMeetings"

def emptyS : String := ""

/-- The comprehension condition of lines 252-254 on one resource string:
`'transcript' in resource.lower() or 'communications/onlineMeetings' in resource`. -/
def codeMatch (resource : String) : Bool :=
  hasSubstr transcriptTok (lowerStr resource) || hasSubstr onlineMeetingsTok resource

/-- The condition applied to a record, with `sub.get('resource', '')`. -/
def isTranscriptSub (s : SubRec) : Bool :=
  codeMatch (s.resource.getD emptyS)

/-- `filter_transcript_subscriptions`, as a function of the subscription
list it reads from `self.subscriptions`. -/
def filterTranscriptSubscriptions (subs : List SubRec) : List SubRec :=
  subs.filter isTranscriptSub

/-- The spec's wording of the transcript predicate: the resource contains
"transcript" case-insensitively, or contains the literal substring
"communications/onlineMeetings". -/
def specMatch (resource : String) : Bool :=
  hasSubstr (lowerStr transcriptTok) (lowerStr resource) || hasSubstr onlineMeetingsTok resource

/-! ### The aggregator (`generate_report`, lines 260-327) -/

/-- The projected subscription dict appended to a group (lines 299-306). -/
structure SubEntry where
  id : Option String
  resource : Option String
  changeType : Option String
  expirationDateTime : Option String
  notificationUrl : Option String
  clientState : Option String
deriving Repr, DecidableEq

def subEntry (s : SubRec) : SubEntry :=
  ⟨s.id, s.resource, s.changeType, s.expirationDateTime, s.notificationUrl, s.clientState⟩

/-- One `apps_map` entry (lines 292-297). -/
structure AppGroup where
  applicationId : String
  displayName : String
  servicePrincipalId : Option String
  subscriptions : List SubEntry
deriving Repr, DecidableEq

/-- `sub.get('applicationId', 'Unknown')` (line 287). -/
def appIdOf (s : SubRec) : String :=
  s.applicationId.getD unknownName

/-- `app_id in apps_map` (line 289), over the insertion-ordered group list. -/
def hasGroup (gs : List AppGroup) (appId : String) : Bool :=
  gs.any (fun g => g.applicationId == appId)

/-- The fresh entry created on first occurrence of an application id
(lines 292-297), before its subscription list receives any record. -/
def newGroup (appId : String) (info : AppInfo) : AppGroup :=
  { applicationId := appId, displayName := info.displayName,
    servicePrincipalId := info.servicePrincipalId, subscriptions := [] }

/-- `apps_map[app_id]['subscriptions'].append(...)` (line 299): append the
entry to the (unique, hence first) group with the given id. -/
def addToGroup : List AppGroup → String → SubEntry → List AppGroup
  | [], _, _ => []
  | g :: gs, appId, e =>
    if g.applicationId == appId then
      { g with subscriptions := g.subscriptions ++ [e] } :: gs
    else g :: addToGroup gs appId e

/-- The grouping loop of lines 286-306: walk the records in input order,
resolving each first-seen application id through the cache-backed
resolver (which consumes the lookup script and may update the cache),
and append each record to its group. -/
def groupGo : List SubRec → List AppGroup → AnalyzerState → List (NetEvent LookupBody) →
    Option (List AppGroup × AnalyzerState × List (NetEvent LookupBody))
  | [], gs, st, script => some (gs, st, script)
  | s :: rest, gs, st, script =>
    if hasGroup gs (appIdOf s) then
      groupGo rest (addToGroup gs (appIdOf s) (subEntry s)) st script
    else
      match getApplicationDetails (appIdOf s) st script with
      | none => none
      | some (info, st2, script2, _) =>
        groupGo rest (addToGroup (gs ++ [newGroup (appIdOf s) info]) (appIdOf s) (subEntry s))
          st2 script2

/-- `len(x['subscriptions'])`, the sort key of line 319. -/
def groupSize (g : AppGroup) : Nat :=
  g.subscriptions.length

/-- Stable descending insertion for the model of line 319's sort: the new
group goes after every already-placed group of equal or larger size. -/
def insertByCountDesc (g : AppGroup) : List AppGroup → List AppGroup
  | [] => [g]
  | h :: t =>
    if groupSize g ≤ groupSize h then h :: insertByCountDesc g t
    else g :: h :: t

/-- `report['applications'].sort(key=lambda x: len(x['subscriptions']), reverse=True)`
(line 319): Python's sort is stable, and a stable descending sort is
extensionally the insertion sort below. -/
def sortByCountDesc (gs : List AppGroup) : List AppGroup :=
  gs.foldl (fun acc g => insertByCountDesc g acc) []

/-- The report dict (lines 309-316), minus the wall-clock `generatedAt`
field, with `applications` already sorted (line 319 mutates in place
before the dict is rendered or returned). -/
structure Report where
  totalSubscriptions : Nat
  transcriptSubscriptions : Nat
  reportedSubscriptions : Nat
  uniqueApplications : Nat
  applications : List AppGroup
deriving Repr, DecidableEq

/-- Lines 274-280: the record set actually grouped.  (In both branches
`transcript_count` equals the length of the transcript-filtered list:
with filtering on it is `len(subs_to_process)` where `subs_to_process`
is the filtered list, otherwise it is computed directly.) -/
def subsToProcess (st : AnalyzerState) (ft : Bool) : List SubRec :=
  if ft then filterTranscriptSubscriptions st.subscriptions else st.subscriptions

/-- `generate_report(output_format, filter_transcripts)`: group, count,
sort.  Console/JSON rendering is outside the embedding.  Returns the
report, the state after resolver activity, and the unconsumed script. -/
def generateReport (st : AnalyzerState) (script : List (NetEvent LookupBody)) (ft : Bool) :
    Option (Report × AnalyzerState × List (NetEvent LookupBody)) :=
  match groupGo (subsToProcess st ft) [] st script with
  | none => none
  | some (gs, st2, rest) =>
    some ({ totalSubscriptions := st.subscriptions.length,
            transcriptSubscriptions := (filterTranscriptSubscriptions st.subscriptions).length,
            reportedSubscriptions := (subsToProcess st ft).length,
            uniqueApplications := gs.length,
            applications := sortByCountDesc gs }, st2, rest)

/-- Sum of the per-group subscription counts. -/
def sizesSum (gs : List AppGroup) : Nat :=
  (gs.map groupSize).sum

/-- "a comes no later than b in descending-count order": the relation the
sorted output is pairwise ordered by. -/
def countGE (a b : AppGroup) : Prop :=
  groupSize b ≤ groupSize a

/-- The groups whose subscription count is exactly `n` (used to state
stability: the sort preserves their relative order). -/
def sizeIs (n : Nat) (g : AppGroup) : Bool :=
  groupSize g == n

/-! ### Script shapes used in the claims -/

/-- A continuation value that keeps the `while url:` loop going: a present,
non-empty next-page link. -/
def goodLink : Option String → Bool
  | some u => !(u == emptyS)
  | none => false

/-- An N-page response sequence in the claims' sense: every page except
the last carries a (truthy) continuation link and the last carries none. -/
def chainedB : List PageBody → Bool
  | [] => true
  | [b] => b.nextLink == none
  | b :: c :: t => goodLink b.nextLink && chainedB (c :: t)

/-- Wrap page bodies as a script in which every page request succeeds
with HTTP 200. -/
def mkPages (bodies : List PageBody) : List PageEvent :=
  bodies.map (fun b => PageEvent.resp 200 b emptyS)

/-! ### Concrete inputs used by witnesses and counterexamples -/

def st0 : AnalyzerState := {}

/-- The first resource path named by the transcript-filter claim. -/
def resMeetTranscript : String := "/communications/onlineMeetings('x')/transcripts('y')"

/-- The second resource path named by the transcript-filter claim. -/
def resMeetOnly : String := "/communications/onlineMeetings('x')"

/-- `/users/1/drive` -/
def resDrive : String := "/users/1/drive"

/-- A 429 event with no `Retry-After`, as used for back-off claims. -/
def ev429 : NetEvent LookupBody :=
  NetEvent.resp { status := 429, retryAfter := none, body := {} }

/-- The header value `5`. -/
def ra5 : String := "5"

/-- A 429 event carrying `Retry-After: 5`. -/
def ev429ra5 : NetEvent LookupBody :=
  NetEvent.resp { status := 429, retryAfter := some ra5, body := {} }

/-- A plain 200 lookup response with an empty `value` array. -/
def okEmpty : Response LookupBody := { status := 200, retryAfter := none, body := {} }

def evOkEmpty : NetEvent LookupBody := NetEvent.resp okEmpty

/-- A 403 hard-error lookup response. -/
def resp403 : Response LookupBody := { status := 403, retryAfter := none, body := {} }

def ev403 : NetEvent LookupBody := NetEvent.resp resp403

/-- A transport error event. -/
def connReset : String := "connection reset"

/-- The decimal rendering of status 429, for checking what an error
message does (not) mention. -/
def status429s : String := "429"

def evNetErr : NetEvent LookupBody := NetEvent.netErr connReset

/-- A script long enough for two lookup calls that both exhaust the
default retry budget of 8 on transport errors (9 requests per call). -/
def twoFailScript : List (NetEvent LookupBody) := List.replicate 18 evNetErr

def oneFailScript : List (NetEvent LookupBody) := List.replicate 9 evNetErr

def appIdA : String := "app-a"

def appIdB : String := "app-b"

def appIdC : String := "app-c"

def appIdD : String := "app-d"

/-- A minimal record owned by the given application. -/
def subOf (a : String) : SubRec := { applicationId := some a }

/-- State for the two-records-one-app report witness. -/
def stW3 : AnalyzerState := { subscriptions := [subOf appIdA, subOf appIdA] }

def scrW3 : List (NetEvent LookupBody) := [evOkEmpty]

/-- State whose grouping yields first-created group counts [3, 1, 3, 2]. -/
def stW8 : AnalyzerState :=
  { subscriptions := [subOf appIdA, subOf appIdA, subOf appIdA, subOf appIdB,
                      subOf appIdC, subOf appIdC, subOf appIdC, subOf appIdD, subOf appIdD] }

def scrW8 : List (NetEvent LookupBody) := List.replicate 4 evOkEmpty

/-- The projection of a `subOf _` record. -/
def emptyEntry : SubEntry := ⟨none, none, none, none, none, none⟩

/-- A group of `k` such records resolved to the not-found placeholder. -/
def nfGroup (a : String) (k : Nat) : AppGroup :=
  { applicationId := a, displayName := "Unknown (Not found in tenant)",
    servicePrincipalId := none, subscriptions := List.replicate k emptyEntry }

/-- First-created group order for `stW8` (counts 3, 1, 3, 2). -/
def gs8 : List AppGroup := [nfGroup appIdA 3, nfGroup appIdB 1, nfGroup appIdC 3, nfGroup appIdD 2]

/-- The stable descending order of `gs8` (counts 3, 3, 2, 1). -/
def apps8 : List AppGroup := [nfGroup appIdA 3, nfGroup appIdC 3, nfGroup appIdD 2, nfGroup appIdB 1]

def cacheOf (as : List String) : List (String × AppInfo) :=
  as.map (fun a => (a, notFoundInfo a))

def stW8Out : AnalyzerState :=
  { subscriptions := stW8.subscriptions, appDetails := cacheOf [appIdA, appIdB, appIdC, appIdD] }

def rep8 : Report :=
  { totalSubscriptions := 9, transcriptSubscriptions := 0, reportedSubscriptions := 9,
    uniqueApplications := 4, applications := apps8 }

def stW3Out : AnalyzerState :=
  { subscriptions := stW3.subscriptions, appDetails := cacheOf [appIdA] }

def rep3 : Report :=
  { totalSubscriptions := 2, transcriptSubscriptions := 0, reportedSubscriptions := 2,
    uniqueApplications := 1, applications := [nfGroup appIdA 2] }

def page2Url : String := "https://graph.microsoft.com/v1.0/subscriptions?page=2"

/-- Two chained listing pages for the pagination witness. -/
def page1 : PageBody :=
  { value := [subOf appIdA, subOf appIdB], nextLink := some page2Url }

def page2 : PageBody := { value := [subOf appIdC], nextLink := none }

/-- A state with a previously stored inventory, for the abort-on-failure
witness. -/
def stC4 : AnalyzerState := { subscriptions := [subOf appIdA] }

def ev500 : PageEvent := PageEvent.resp 500 {} "server error"

def ev429page : PageEvent := PageEvent.resp 429 {} "throttled"

/-- Per-retry exponential waits, attempts `rc+1 ... rc+k`, each capped at
120 (the wait list of an all-429, no-`Retry-After` run). -/
def expWaits (rc : Nat) : Nat → List Int
  | 0 => []
  | k + 1 => min (expDelay (rc + 1)) 120 :: expWaits (rc + 1) k

/-! ### Helper lemmas -/

theorem lookup_append_self (l : List (String × AppInfo)) (k : String) (v : AppInfo)
    (h : l.lookup k = none) : (l ++ [(k, v)]).lookup k = some v := by
  induction l with
  | nil => simp [List.lookup]
  | cons p t ih =>
    obtain ⟨b, w⟩ := p
    cases hb : (k == b) with
    | true => exact absurd h (by simp [List.lookup, hb])
    | false =>
      simp only [List.cons_append, List.lookup, hb] at h ⊢
      exact ih h

theorem expWaits_length (rc k : Nat) : (expWaits rc k).length = k := by
  induction k generalizing rc with
  | zero => simp [expWaits]
  | succ k ih => simp [expWaits, ih]

theorem expWaits_get : ∀ (k rc i : Nat) (hi : i < (expWaits rc k).length),
    (expWaits rc k).get ⟨i, hi⟩ = min (expDelay (rc + 1 + i)) 120 := by
  intro k
  induction k with
  | zero => intro rc i hi; simp [expWaits] at hi
  | succ k ih =>
    intro rc i hi
    cases i with
    | zero => simp [expWaits]
    | succ i =>
      have := ih (rc + 1) i (by simpa [expWaits] using hi)
      simpa [expWaits, Nat.add_assoc, Nat.add_comm, Nat.add_left_comm] using this

theorem fetchGo_rep429 (url : String) :
    ∀ (k rc n m : Nat), m = rc + k → k + 1 ≤ n →
    fetchGo url m (List.replicate n ev429) rc =
      ⟨FetchOutcome.exhausted (httpExhaustMsg m url), expWaits rc k, k + 1,
       List.replicate (n - (k + 1)) ev429⟩ := by
  intro k
  induction k with
  | zero =>
    intro rc n m hm hn
    obtain ⟨n', rfl⟩ : ∃ n', n = n' + 1 := ⟨n - 1, by omega⟩
    rw [List.replicate_succ]
    simp only [ev429, fetchGo]
    rw [if_neg (by decide), if_pos (by decide), if_pos (by omega)]
    simp [expWaits]
  | succ k ih =>
    intro rc n m hm hn
    obtain ⟨n', rfl⟩ : ∃ n', n = n' + 1 := ⟨n - 1, by omega⟩
    rw [List.replicate_succ]
    simp only [ev429, fetchGo]
    rw [if_neg (by decide), if_pos (by decide), if_neg (by omega)]
    rw [show (NetEvent.resp { status := 429, retryAfter := none, body := {} } :
          NetEvent LookupBody) = ev429 from rfl]
    rw [ih (rc + 1) n' m (by omega) (by omega)]
    simp [expWaits, retryWait, retryWaitRaw]

theorem hasGroup_append_new (gs : List AppGroup) (k : String) (info : AppInfo) :
    hasGroup (gs ++ [newGroup k info]) k = true := by
  simp [hasGroup, newGroup, List.any_append]

theorem addToGroup_sum (gs : List AppGroup) (k : String) (e : SubEntry)
    (h : hasGroup gs k = true) :
    sizesSum (addToGroup gs k e) = sizesSum gs + 1 := by
  induction gs with
  | nil => simp [hasGroup] at h
  | cons g t ih =>
    cases hk : (g.applicationId == k) with
    | true =>
      simp [addToGroup, hk, sizesSum, groupSize]
      omega
    | false =>
      have ht : hasGroup t k = true := by
        simpa [hasGroup, hk] using h
      simp [addToGroup, hk, sizesSum, groupSize] at ih ⊢
      have := ih ht
      omega

theorem groupGo_sum :
    ∀ (subs : List SubRec) (gs : List AppGroup) (st : AnalyzerState)
      (script : List (NetEvent LookupBody)) (gs2 : List AppGroup) (st2 : AnalyzerState)
      (rest : List (NetEvent LookupBody)),
    groupGo subs gs st script = some (gs2, st2, rest) →
    sizesSum gs2 = sizesSum gs + subs.length := by
  intro subs
  induction subs with
  | nil =>
    intro gs st script gs2 st2 rest h
    simp [groupGo] at h
    simp [h.1]
  | cons s t ih =>
    intro gs st script gs2 st2 rest h
    by_cases hg : hasGroup gs (appIdOf s)
    · rw [groupGo, if_pos hg] at h
      have := ih _ _ _ _ _ _ h
      rw [this, addToGroup_sum gs (appIdOf s) (subEntry s) hg]
      simp only [List.length_cons]
      omega
    · rw [groupGo, if_neg hg] at h
      cases hd : getApplicationDetails (appIdOf s) st script with
      | none => rw [hd] at h; exact absurd h (by simp)
      | some r =>
        obtain ⟨info, st3, script3, d⟩ := r
        rw [hd] at h
        have := ih _ _ _ _ _ _ h
        rw [this, addToGroup_sum _ (appIdOf s) (subEntry s)
            (hasGroup_append_new gs (appIdOf s) info)]
        simp [sizesSum, newGroup, groupSize]
        omega

theorem insertByCountDesc_perm (g : AppGroup) (l : List AppGroup) :
    (insertByCountDesc g l).Perm (g :: l) := by
  induction l with
  | nil => simp [insertByCountDesc]
  | cons h t ih =>
    by_cases hc : groupSize g ≤ groupSize h
    · rw [insertByCountDesc, if_pos hc]
      exact (ih.cons h).trans (List.Perm.swap g h t)
    · rw [insertByCountDesc, if_neg hc]

theorem sortFold_perm (l : List AppGroup) :
    ∀ acc : List AppGroup, (l.foldl (fun a g => insertByCountDesc g a) acc).Perm (l ++ acc) := by
  induction l with
  | nil => intro acc; simp
  | cons g t ih =>
    intro acc
    have h1 := ih (insertByCountDesc g acc)
    have h2 : (t ++ insertByCountDesc g acc).Perm (t ++ (g :: acc)) :=
      (insertByCountDesc_perm g acc).append_left t
    have h3 : (t ++ (g :: acc)).Perm (g :: (t ++ acc)) := List.perm_middle
    exact h1.trans (h2.trans h3)

theorem sortByCountDesc_perm (gs : List AppGroup) :
    (sortByCountDesc gs).Perm gs := by
  simpa using sortFold_perm gs []

theorem mem_insertByCountDesc {x g : AppGroup} {l : List AppGroup}
    (hx : x ∈ insertByCountDesc g l) : x = g ∨ x ∈ l := by
  have := (insertByCountDesc_perm g l).mem_iff.mp hx
  simpa using this

theorem insertByCountDesc_pairwise (g : AppGroup) (l : List AppGroup)
    (h : l.Pairwise countGE) : (insertByCountDesc g l).Pairwise countGE := by
  induction l with
  | nil => simp [insertByCountDesc, List.pairwise_cons, countGE]
  | cons b t ih =>
    rw [List.pairwise_cons] at h
    by_cases hc : groupSize g ≤ groupSize b
    · rw [insertByCountDesc, if_pos hc]
      rw [List.pairwise_cons]
      refine ⟨?_, ih h.2⟩
      intro x hx
      rcases mem_insertByCountDesc hx with rfl | hxt
      · exact hc
      · exact h.1 x hxt
    · rw [insertByCountDesc, if_neg hc]
      rw [List.pairwise_cons]
      refine ⟨?_, List.pairwise_cons.mpr h⟩
      intro x hx
      rcases List.mem_cons.mp hx with rfl | hxt
      · exact Nat.le_of_lt (Nat.lt_of_not_le hc)
      · exact Nat.le_trans (h.1 x hxt) (Nat.le_of_lt (Nat.lt_of_not_le hc))

theorem sortFold_pairwise (l : List AppGroup) :
    ∀ acc : List AppGroup, acc.Pairwise countGE →
    (l.foldl (fun a g => insertByCountDesc g a) acc).Pairwise countGE := by
  induction l with
  | nil => intro acc ha; simpa using ha
  | cons g t ih =>
    intro acc ha
    exact ih (insertByCountDesc g acc) (insertByCountDesc_pairwise g acc ha)

theorem sortByCountDesc_pairwise (gs : List AppGroup) :
    (sortByCountDesc gs).Pairwise countGE :=
  sortFold_pairwise gs [] (List.Pairwise.nil)

theorem filter_insertByCountDesc_ne (g : AppGroup) (l : List AppGroup) (n : Nat)
    (hg : sizeIs n g = false) :
    (insertByCountDesc g l).filter (sizeIs n) = l.filter (sizeIs n) := by
  induction l with
  | nil => simp [insertByCountDesc, List.filter, hg]
  | cons b t ih =>
    by_cases hc : groupSize g ≤ groupSize b
    · rw [insertByCountDesc, if_pos hc]
      simp only [List.filter, ih]
    · rw [insertByCountDesc, if_neg hc]
      simp only [List.filter, hg]

theorem filter_insertByCountDesc_eq (g : AppGroup) (l : List AppGroup) (n : Nat)
    (hg : sizeIs n g = true) (hs : l.Pairwise countGE) :
    (insertByCountDesc g l).filter (sizeIs n) = l.filter (sizeIs n) ++ [g] := by
  induction l with
  | nil => simp [insertByCountDesc, List.filter, hg]
  | cons b t ih =>
    rw [List.pairwise_cons] at hs
    by_cases hc : groupSize g ≤ groupSize b
    · rw [insertByCountDesc, if_pos hc]
      simp only [List.filter, ih hs.2]
      cases sizeIs n b <;> simp
    · rw [insertByCountDesc, if_neg hc]
      have hn : groupSize g = n := by simpa [sizeIs] using hg
      have hbt : (b :: t).filter (sizeIs n) = [] := by
        rw [List.filter_eq_nil_iff]
        intro x hx
        have hxb : groupSize x ≤ groupSize b := by
          rcases List.mem_cons.mp hx with rfl | hxt
          · exact Nat.le_refl _
          · exact hs.1 x hxt
        have : groupSize x ≠ n := by omega
        simp [sizeIs, this]
      calc (g :: b :: t).filter (sizeIs n)
          = g :: (b :: t).filter (sizeIs n) := by simp [List.filter, hg]
        _ = [g] := by rw [hbt]
        _ = (b :: t).filter (sizeIs n) ++ [g] := by rw [hbt]; rfl

theorem sortFold_filter (l : List AppGroup) :
    ∀ (acc : List AppGroup) (n : Nat), acc.Pairwise countGE →
    (l.foldl (fun a g => insertByCountDesc g a) acc).filter (sizeIs n) =
      acc.filter (sizeIs n) ++ l.filter (sizeIs n) := by
  induction l with
  | nil => intro acc n _; simp
  | cons g t ih =>
    intro acc n ha
    rw [List.foldl_cons, ih (insertByCountDesc g acc) n (insertByCountDesc_pairwise g acc ha)]
    cases hg : sizeIs n g with
    | true =>
      rw [filter_insertByCountDesc_eq g acc n hg ha]
      simp [List.filter, hg]
    | false =>
      rw [filter_insertByCountDesc_ne g acc n hg]
      simp [List.filter, hg]

theorem sortByCountDesc_filter (gs : List AppGroup) (n : Nat) :
    (sortByCountDesc gs).filter (sizeIs n) = gs.filter (sizeIs n) := by
  simpa using sortFold_filter gs [] n (List.Pairwise.nil)

/-! ### Claim theorems -/

/-- Claim C6: for a 429/503 response whose Retry-After header parses as an
integer number of seconds, the fetcher waits exactly that value (verbatim,
not the exponential one), capped at 120 seconds; when the header is absent
or does not parse as an integer it waits `1 * 2 ^ (attempt - 1)` seconds,
capped at 120; in particular a 429 carrying `Retry-After: 5` causes a wait
of exactly 5 seconds before the retry. -/
theorem c6_retry_after_wait (attempt : Nat) (s : String) (n : Int) :
    (pyIntOfStr s = some n → retryWait attempt (some s) = min n 120) ∧
    (pyIntOfStr s = none → retryWait attempt (some s) = min (expDelay attempt) 120) ∧
    retryWait attempt none = min (expDelay attempt) 120 ∧
    fetch spUrl 8 [ev429ra5, evOkEmpty] = ⟨FetchOutcome.ok okEmpty, [5], 2, []⟩ := by
  refine ⟨?_, ?_, rfl, by decide⟩
  · intro hp
    by_cases he : s = ""
    · rw [he] at hp
      have h0 : pyIntOfStr "" = none := by decide
      rw [h0] at hp
      exact Option.noConfusion hp
    · simp [retryWait, retryWaitRaw, he, hp]
  · intro hp
    by_cases he : s = ""
    · simp [retryWait, retryWaitRaw, he]
    · simp [retryWait, retryWaitRaw, he, hp]

theorem c6_witness :
    pyIntOfStr ra5 = some 5 ∧ retryWait 1 (some ra5) = min 5 120 ∧
    retryWait 1 none = min (expDelay 1) 120 :=
  ⟨by decide, (c6_retry_after_wait 1 ra5 5).1 (by decide), (c6_retry_after_wait 1 ra5 5).2.2.1⟩

/-- Claim C7 (counterexample to "carrying the last status"): with budget 3
and a run of 429 responses without Retry-After, the call does fail after
exactly 3 retries with waits 1, 2, 4, but the raised error's message is
"Max retries (3) exceeded for <url>", which carries the retry budget and
the URL and does not carry the last HTTP status (429). -/
theorem c7_counterexample :
    fetch spUrl 3 (List.replicate 4 ev429) =
      ⟨FetchOutcome.exhausted (httpExhaustMsg 3 spUrl), [1, 2, 4], 4, []⟩ ∧
    httpExhaustMsg 3 spUrl =
      "Max retries (3) exceeded for https://graph.microsoft.com/v1.0/servicePrincipals" ∧
    hasSubstr status429s (httpExhaustMsg 3 spUrl) = false := by
  refine ⟨by decide, by decide, by decide⟩

/-- Claim C7 (amended): for a run of consecutive 429 responses with no
Retry-After within one fetch call with budget `m`, the successive retry
waits are `2^0, 2^1, ...` seconds each capped at 120, and the call fails
with the max-retries-exceeded error (reporting the budget and URL) after
`m` retries, i.e. `m + 1` requests; with budget 3, exactly 3 retries with
waits 1, 2, 4 are performed and then the call fails. -/
theorem c7_amended (m n : Nat) (h : m + 1 ≤ n) :
    fetch spUrl m (List.replicate n ev429) =
      ⟨FetchOutcome.exhausted (httpExhaustMsg m spUrl), expWaits 0 m, m + 1,
       List.replicate (n - (m + 1)) ev429⟩ ∧
    (expWaits 0 m).length = m ∧
    (∀ (i : Nat) (hi : i < (expWaits 0 m).length),
      (expWaits 0 m).get ⟨i, hi⟩ = min (expDelay (i + 1)) 120) ∧
    fetch spUrl 3 (List.replicate 4 ev429) =
      ⟨FetchOutcome.exhausted (httpExhaustMsg 3 spUrl), [1, 2, 4], 4, []⟩ := by
  refine ⟨fetchGo_rep429 spUrl m 0 n m (by omega) h, expWaits_length 0 m, ?_, by decide⟩
  intro i hi
  have := expWaits_get m 0 i hi
  simpa [Nat.add_comm] using this

theorem c7_witness :
    3 + 1 ≤ 4 ∧
    fetch spUrl 3 (List.replicate 4 ev429) =
      ⟨FetchOutcome.exhausted (httpExhaustMsg 3 spUrl), expWaits 0 3, 3 + 1,
       List.replicate (4 - (3 + 1)) ev429⟩ :=
  ⟨by omega, (c7_amended 3 4 (by omega)).1⟩

theorem getAllGo_chained :
    ∀ (bs : List PageBody) (b : PageBody) (u : String) (acc : List SubRec) (pages : Nat),
    u ≠ "" → chainedB (b :: bs) = true →
    getAllGo (mkPages (b :: bs)) (some u) acc pages =
      (ListOutcome.ok (acc ++ ((b :: bs).map PageBody.value).flatten),
       pages + (b :: bs).length, []) := by
  intro bs
  induction bs with
  | nil =>
    intro b u acc pages hu hc
    have hnl : b.nextLink = none := by
      have := hc
      simp [chainedB] at this
      exact this
    simp [mkPages, getAllGo, hu, hnl]
  | cons c t ih =>
    intro b u acc pages hu hc
    rw [chainedB] at hc
    simp only [Bool.and_eq_true] at hc
    obtain ⟨hg, hct⟩ := hc
    cases hnl : b.nextLink with
    | none => rw [hnl] at hg; simp [goodLink] at hg
    | some u2 =>
      rw [hnl] at hg
      have hu2 : u2 ≠ "" := by
        simp [goodLink, emptyS] at hg
        simpa using hg
      have step : getAllGo (mkPages (b :: c :: t)) (some u) acc pages =
          getAllGo (mkPages (c :: t)) (some u2) (acc ++ b.value) (pages + 1) := by
        simp [mkPages, getAllGo, hu, hnl]
      rw [step, ih c u2 (acc ++ b.value) (pages + 1) hu2 hct]
      simp [List.append_assoc]
      omega

/-- Claim C5: for every chained paginated response sequence (each page but
the last carrying a truthy continuation link, the last carrying none) in
which every request returns HTTP 200, `get_all_subscriptions` returns the
concatenation of the pages' `value` arrays in page order, performs exactly
N requests, terminates with the script fully consumed, and stores the
concatenation in `self.subscriptions`. -/
theorem c5_pagination (st : AnalyzerState) (b : PageBody) (bs : List PageBody)
    (hc : chainedB (b :: bs) = true) :
    getAllSubscriptions st (mkPages (b :: bs)) =
      (ListOutcome.ok (((b :: bs).map PageBody.value).flatten),
       { st with subscriptions := ((b :: bs).map PageBody.value).flatten },
       (b :: bs).length, []) := by
  have h := getAllGo_chained bs b subsUrl [] 0 (by decide) hc
  simp only [List.nil_append, Nat.zero_add] at h
  simp [getAllSubscriptions, h]

theorem c5_witness :
    chainedB [page1, page2] = true ∧
    getAllSubscriptions st0 (mkPages [page1, page2]) =
      (ListOutcome.ok [subOf appIdA, subOf appIdB, subOf appIdC],
       { st0 with subscriptions := [subOf appIdA, subOf appIdB, subOf appIdC] },
       2, []) := by
  refine ⟨by decide, ?_⟩
  have h := c5_pagination st0 page1 [page2] (by decide)
  simpa [page1, page2] using h

/-- Claim C4: when the listing fails, the caller receives the error (not a
partial list) and the stored subscription set is unchanged: the
accumulated records are published to `self.subscriptions` only after every
page succeeded. -/
theorem c4_abort_preserves_state (st : AnalyzerState) (script : List PageEvent)
    (msg : String) (st2 : AnalyzerState) (pages : Nat) (rest : List PageEvent)
    (h : getAllSubscriptions st script = (ListOutcome.fail msg, st2, pages, rest)) :
    st2 = st ∧ st2.subscriptions = st.subscriptions := by
  unfold getAllSubscriptions at h
  rcases hg : getAllGo script (some subsUrl) [] 0 with ⟨o, p2, r2⟩
  rw [hg] at h
  cases o with
  | ok subs => simp at h
  | fail m =>
    simp at h
    obtain ⟨h1, h2, h3, h4⟩ := h
    exact ⟨h2.symm, by rw [← h2]⟩
  | scriptDry => simp at h

theorem c4_witness :
    getAllSubscriptions stC4 [ev500] =
      (ListOutcome.fail (pageFailMsg 500 "server error"), stC4, 1, []) ∧
    stC4 = stC4 ∧ stC4.subscriptions = stC4.subscriptions :=
  ⟨by decide, c4_abort_preserves_state stC4 [ev500] (pageFailMsg 500 "server error")
      stC4 1 [] (by decide)⟩

/-- Claim C1 is a code bug: the listing loop issues its page requests with
a plain `requests.get` (line 180) and raises on any non-200 status
(lines 182-183) instead of calling `_make_graph_request_with_retry`, so a
429 on a listing page aborts the whole listing after exactly one request,
with no back-off wait and no retry.  This theorem evaluates the embedded
code on that failing input. -/
theorem c1_listing_throttle_aborts :
    getAllSubscriptions st0 [ev429page] =
      (ListOutcome.fail (pageFailMsg 429 "throttled"), st0, 1, []) ∧
    pageFailMsg 429 "throttled" = "Failed to fetch subscriptions: 429 - throttled" :=
  ⟨by decide, by decide⟩

/-- Claim C2 (counterexample): a first resolution whose lookup call fails
(retry budget exhausted on transport errors) returns the "Error fetching
details" placeholder but does NOT store it in the cache (the state is
unchanged), so a second resolution of the same applicationId performs a
second lookup call (`true` in the last component both times): two
resolutions trigger two lookup calls, not one. -/
theorem c2_counterexample :
    getApplicationDetails appIdA st0 twoFailScript =
      some (errorInfo appIdA, st0, oneFailScript, true) ∧
    getApplicationDetails appIdA st0 oneFailScript =
      some (errorInfo appIdA, st0, [], true) ∧
    st0.appDetails.lookup appIdA = none :=
  ⟨by decide, by decide, by decide⟩

/-- Claim C2 (amended): on a cache miss the resolver always performs one
lookup call; when the lookup completes (success, zero matches, or a hard
HTTP error) the resulting ApplicationInfo — including the "not found in
tenant" placeholder — is cached, and a second resolution returns the
identical cached value with no further lookup call; but when the lookup
call raises (retry budget exhausted), the "Error fetching details"
placeholder is returned without being cached and the state is unchanged,
so a second resolution performs a lookup call again. -/
theorem c2_amended (appId : String) (st : AnalyzerState)
    (script script2 : List (NetEvent LookupBody)) (info : AppInfo)
    (st2 : AnalyzerState) (rest : List (NetEvent LookupBody)) (did : Bool)
    (hmiss : st.appDetails.lookup appId = none)
    (h : getApplicationDetails appId st script = some (info, st2, rest, did)) :
    did = true ∧
    ((st2.appDetails.lookup appId = some info ∧
      getApplicationDetails appId st2 script2 = some (info, st2, script2, false)) ∨
     (info = errorInfo appId ∧ st2 = st ∧
      ∀ (info3 : AppInfo) (st3 : AnalyzerState) (rest3 : List (NetEvent LookupBody)) (did3 : Bool),
        getApplicationDetails appId st2 script2 = some (info3, st3, rest3, did3) →
        did3 = true)) := by
  unfold getApplicationDetails applyFetch at h
  rw [hmiss] at h
  cases ho : (fetch spUrl 8 script).outcome with
  | ok r =>
    rw [ho] at h
    simp at h
    obtain ⟨hinfo, hst, hrest, hdid⟩ := h
    refine ⟨hdid, Or.inl ⟨?_, ?_⟩⟩
    · rw [← hst, ← hinfo, cacheAdd]
      exact lookup_append_self st.appDetails appId (resolveOk appId r) hmiss
    · have hl : st2.appDetails.lookup appId = some info := by
        rw [← hst, ← hinfo, cacheAdd]
        exact lookup_append_self st.appDetails appId (resolveOk appId r) hmiss
      unfold getApplicationDetails
      rw [hl]
  | exhausted m =>
    rw [ho] at h
    simp at h
    obtain ⟨hinfo, hst, hrest, hdid⟩ := h
    refine ⟨hdid, Or.inr ⟨hinfo.symm, hst.symm, ?_⟩⟩
    intro info3 st3 rest3 did3 h3
    unfold getApplicationDetails applyFetch at h3
    rw [hst] at hmiss
    rw [hmiss] at h3
    cases ho2 : (fetch spUrl 8 script2).outcome with
    | ok r2 => rw [ho2] at h3; simp at h3; exact h3.2.2.2
    | exhausted m2 => rw [ho2] at h3; simp at h3; exact h3.2.2.2
    | scriptDry => rw [ho2] at h3; simp at h3
  | scriptDry =>
    rw [ho] at h
    simp at h

theorem c2_witness :
    st0.appDetails.lookup appIdA = none ∧
    getApplicationDetails appIdA st0 [evOkEmpty] =
      some (notFoundInfo appIdA, cacheAdd st0 appIdA (notFoundInfo appIdA), [], true) ∧
    (true = true ∧
     (((cacheAdd st0 appIdA (notFoundInfo appIdA)).appDetails.lookup appIdA =
         some (notFoundInfo appIdA) ∧
       getApplicationDetails appIdA (cacheAdd st0 appIdA (notFoundInfo appIdA)) [] =
         some (notFoundInfo appIdA, cacheAdd st0 appIdA (notFoundInfo appIdA), [], false)) ∨
      (notFoundInfo appIdA = errorInfo appIdA ∧
       cacheAdd st0 appIdA (notFoundInfo appIdA) = st0 ∧
       ∀ (i : AppInfo) (s : AnalyzerState) (r : List (NetEvent LookupBody)) (d : Bool),
         getApplicationDetails appIdA (cacheAdd st0 appIdA (notFoundInfo appIdA)) [] =
           some (i, s, r, d) → d = true))) :=
  ⟨by decide, by decide,
   c2_amended appIdA st0 [evOkEmpty] [] (notFoundInfo appIdA)
     (cacheAdd st0 appIdA (notFoundInfo appIdA)) [] true (by decide) (by decide)⟩

/-- Claim C10: on a cache miss, when the retry-wrapped lookup completes
with a non-200 status (a hard HTTP error such as 403, which the fetcher
returns without retrying) the resolver caches and returns the
"Unknown (Not found in tenant)" placeholder — the very placeholder a
successful lookup with zero matches produces — while the
"Error fetching details" placeholder arises exactly on the exception path
(and is not cached). -/
theorem c10_resolver_hard_http (appId : String) (st : AnalyzerState)
    (script : List (NetEvent LookupBody)) (r : Response LookupBody) (ws : List Int)
    (nreq : Nat) (rem : List (NetEvent LookupBody)) (msg : String)
    (hmiss : st.appDetails.lookup appId = none) :
    (fetch spUrl 8 script = ⟨FetchOutcome.ok r, ws, nreq, rem⟩ → r.status ≠ 200 →
      getApplicationDetails appId st script =
        some (notFoundInfo appId, cacheAdd st appId (notFoundInfo appId), rem, true)) ∧
    (fetch spUrl 8 script = ⟨FetchOutcome.ok r, ws, nreq, rem⟩ → r.status = 200 →
      r.body.value = [] →
      getApplicationDetails appId st script =
        some (notFoundInfo appId, cacheAdd st appId (notFoundInfo appId), rem, true)) ∧
    (fetch spUrl 8 script = ⟨FetchOutcome.exhausted msg, ws, nreq, rem⟩ →
      getApplicationDetails appId st script = some (errorInfo appId, st, rem, true)) := by
  refine ⟨?_, ?_, ?_⟩
  · intro hf hs
    unfold getApplicationDetails applyFetch
    rw [hmiss, hf]
    simp [resolveOk, hs]
  · intro hf hs hv
    unfold getApplicationDetails applyFetch
    rw [hmiss, hf]
    simp [resolveOk, hs, hv]
  · intro hf
    unfold getApplicationDetails applyFetch
    rw [hmiss, hf]

theorem c10_witness :
    st0.appDetails.lookup appIdA = none ∧
    fetch spUrl 8 [ev403] = ⟨FetchOutcome.ok resp403, [], 1, []⟩ ∧
    getApplicationDetails appIdA st0 [ev403] =
      some (notFoundInfo appIdA, cacheAdd st0 appIdA (notFoundInfo appIdA), [], true) :=
  ⟨by decide, by decide,
   (c10_resolver_hard_http appIdA st0 [ev403] resp403 [] 1 [] "" (by decide)).1
     (by decide) (by decide)⟩

/-- Claim C3: for every Report constructed by `generate_report` (with or
without transcript filtering), the sum of subscription counts over all
application groups equals `reportedSubscriptions`, and
`uniqueApplications` equals the number of entries in `applications`. -/
theorem c3_report_counts (st : AnalyzerState) (script : List (NetEvent LookupBody)) (ft : Bool)
    (rep : Report) (st2 : AnalyzerState) (rest : List (NetEvent LookupBody))
    (h : generateReport st script ft = some (rep, st2, rest)) :
    sizesSum rep.applications = rep.reportedSubscriptions ∧
    rep.uniqueApplications = rep.applications.length := by
  unfold generateReport at h
  rcases hg : groupGo (subsToProcess st ft) [] st script with _ | ⟨gs, st3, rest3⟩
  · rw [hg] at h; simp at h
  · rw [hg] at h
    simp at h
    obtain ⟨hrep, hst, hrest⟩ := h
    have hsum := groupGo_sum (subsToProcess st ft) [] st script gs st3 rest3 hg
    have e1 : sizesSum (sortByCountDesc gs) = sizesSum gs := by
      unfold sizesSum
      exact ((sortByCountDesc_perm gs).map groupSize).sum_eq
    constructor
    · rw [← hrep]
      show sizesSum (sortByCountDesc gs) = (subsToProcess st ft).length
      rw [e1, hsum]
      simp [sizesSum]
    · rw [← hrep]
      show gs.length = (sortByCountDesc gs).length
      exact ((sortByCountDesc_perm gs).length_eq).symm

theorem c3_witness :
    generateReport stW3 scrW3 false = some (rep3, stW3Out, []) ∧
    sizesSum rep3.applications = rep3.reportedSubscriptions ∧
    rep3.uniqueApplications = rep3.applications.length := by
  have h1 : generateReport stW3 scrW3 false = some (rep3, stW3Out, []) := by decide
  exact ⟨h1, c3_report_counts stW3 scrW3 false rep3 stW3Out [] h1⟩

/-- Claim C8: the application groups of every report are sorted by
descending subscription count (pairwise, each group's count is at least
the next's), the sorted sequence is a permutation of the first-created
group sequence, and the sort is stable: for every count value, the groups
of that count appear in the same relative (first-created) order as in the
grouping's output. -/
theorem c8_sort_stable (st : AnalyzerState) (script : List (NetEvent LookupBody)) (ft : Bool)
    (rep : Report) (st2 : AnalyzerState) (rest : List (NetEvent LookupBody))
    (h : generateReport st script ft = some (rep, st2, rest)) :
    rep.applications.Pairwise countGE ∧
    (∀ (gs : List AppGroup) (st3 : AnalyzerState) (rest3 : List (NetEvent LookupBody)),
      groupGo (subsToProcess st ft) [] st script = some (gs, st3, rest3) →
      rep.applications.Perm gs ∧
      ∀ n : Nat, rep.applications.filter (sizeIs n) = gs.filter (sizeIs n)) := by
  unfold generateReport at h
  rcases hg : groupGo (subsToProcess st ft) [] st script with _ | ⟨gs0, st30, rest30⟩
  · rw [hg] at h; simp at h
  · rw [hg] at h
    simp at h
    obtain ⟨hrep, hst, hrest⟩ := h
    constructor
    · rw [← hrep]
      exact sortByCountDesc_pairwise gs0
    · intro gs st3 rest3 hg2
      simp at hg2
      obtain ⟨hgs, hst3, hrest3⟩ := hg2
      rw [← hrep, ← hgs]
      exact ⟨sortByCountDesc_perm gs0, fun n => sortByCountDesc_filter gs0 n⟩

theorem c8_witness :
    generateReport stW8 scrW8 false = some (rep8, stW8Out, []) ∧
    groupGo (subsToProcess stW8 false) [] stW8 scrW8 = some (gs8, stW8Out, []) ∧
    rep8.applications.Pairwise countGE ∧
    rep8.applications.Perm gs8 ∧
    ∀ n : Nat, rep8.applications.filter (sizeIs n) = gs8.filter (sizeIs n) := by
  have h1 : generateReport stW8 scrW8 false = some (rep8, stW8Out, []) := by decide
  have h2 : groupGo (subsToProcess stW8 false) [] stW8 scrW8 = some (gs8, stW8Out, []) := by
    decide
  have hmain := c8_sort_stable stW8 scrW8 false rep8 stW8Out [] h1
  exact ⟨h1, h2, hmain.1, (hmain.2 gs8 stW8Out [] h2).1, (hmain.2 gs8 stW8Out [] h2).2⟩

/-- Claim C9: a record counts as a transcript match precisely when its
resource string (defaulting to the empty string when absent) contains
"transcript" case-insensitively or contains the literal substring
"communications/onlineMeetings"; in particular the two
`/communications/onlineMeetings...` resources named by the claim match
and `/users/1/drive` does not, and the filter keeps exactly the matching
records. -/
theorem c9_transcript_filter :
    (∀ r : String, codeMatch r = specMatch r) ∧
    codeMatch resMeetTranscript = true ∧
    codeMatch resMeetOnly = true ∧
    codeMatch resDrive = false ∧
    (∀ (subs : List SubRec) (s : SubRec),
      s ∈ filterTranscriptSubscriptions subs ↔ s ∈ subs ∧ isTranscriptSub s = true) ∧
    (∀ s : SubRec, isTranscriptSub s = codeMatch (s.resource.getD emptyS)) := by
  refine ⟨?_, by decide, by decide, by decide, ?_, fun s => rfl⟩
  · intro r
    have hl : lowerStr transcriptTok = transcriptTok := by decide
    unfold codeMatch specMatch
    rw [hl]
  · intro subs s
    simp [filterTranscriptSubscriptions, List.mem_filter]

theorem c9_witness :
    codeMatch resMeetTranscript = specMatch resMeetTranscript ∧
    isTranscriptSub { resource := some resDrive } = false :=
  ⟨c9_transcript_filter.1 resMeetTranscript, by decide⟩
